import Mathlib

/-!
Shallow embedding of the backuprs backup-archival pipeline
(src/lib.rs, src/error.rs, src/main.rs, src/utils.rs).

Conventions of the embedding:
* Rust `Box<dyn Error>` values are modelled by the inductive `Err`,
  whose constructors cover the error values the library itself creates
  (`TarballExistsError`, `MEGAFileExistsError`) plus opaque I/O and
  MEGA-transport errors carrying a message.
* A Rust `panic!` (from `.expect`) is modelled explicitly as an outcome
  constructor, never conflated with an `Err` result.
* The remote store, the local filesystem and the clock are modelled as
  explicit inputs (snapshots / oracles), so every function is pure and
  executable.
* Paths use the Windows separator `"\\"`, exactly as the string
  manipulation in `create_tarball_from_dirs` does.
-/

namespace Backuprs

/-- Errors produced or propagated by the library (src/error.rs plus
opaque I/O and MEGA transport errors). -/
inductive Err where
  | tarballExists (file_name : String)
  | megaFileExists (file_name : String)
  | io (msg : String)
  | mega (msg : String)
deriving DecidableEq

deriving instance DecidableEq for Except

/-- `mega::NodeKind`, restricted to the two kinds the code inspects. -/
inductive NodeKind where
  | file
  | folder
deriving DecidableEq

/-- A `mega::Node`: remote object with name, kind, optional parent handle,
creation timestamp and its own handle. -/
structure Node where
  name : String
  kind : NodeKind
  parent : Option Nat
  created_at : Int
  handle : Nat
deriving DecidableEq

/-- `pat` occurs as a contiguous run inside `s` (lists of characters). -/
def chars_contain (s pat : List Char) : Bool :=
  pat.isPrefixOf s ||
    match s with
    | [] => false
    | _ :: t => chars_contain t pat

/-- Rust `str::contains(pat)`: `pat` occurs as a contiguous substring. -/
def str_contains (s pat : String) : Bool :=
  chars_contain s.data pat.data

/-- The filter of `find_obsolete_nodes` (src/lib.rs lines 121-127):
parent equals the backup folder's handle, and the name contains both
`".tar.gz"` and `"backup"`. -/
def matches_backup (b : Node) (n : Node) : Bool :=
  n.parent == some b.handle && str_contains n.name ".tar.gz" && str_contains n.name "backup"

/-- Result of `find_obsolete_nodes`: `Ok(Option<Vec<Node>>)`, an error, or a
Rust panic (the `.expect` inside the filter closure). -/
inductive FindResult where
  | ok (r : Option (List Node))
  | err (e : Err)
  | panicked (msg : String)
deriving DecidableEq

/-- Stable insertion of a node into a list sorted ascending by
`created_at`: `x` passes over strictly older nodes and stops in front of
the first node at least as new, so nodes with equal timestamps keep
their original relative order. -/
def insert_by_created : Node → List Node → List Node
  | x, [] => [x]
  | x, y :: rest =>
    if y.created_at < x.created_at then y :: insert_by_created x rest
    else x :: y :: rest

/-- Rust `Vec::sort_by_key(|x| x.created_at())`: a stable sort ascending
by creation time, modelled as stable insertion sort (any stable
comparison sort computes the same list). -/
def sort_by_created : List Node → List Node
  | [] => []
  | x :: rest => insert_by_created x (sort_by_created rest)

/-- `BackupClient::find_obsolete_nodes` (src/lib.rs lines 117-141).

Inputs: the client's `backup_node` field, the result of
`mega_client.fetch_own_nodes()` (a remote-store snapshot or an error),
and `max_backups`.

The source first propagates a fetch error (`?`), then filters the nodes.
The filter closure evaluates
`self.backup_node.as_ref().expect(..)` on its first invocation, so when
`backup_node` is `None` and the fetched list is nonempty the call panics;
when the fetched list is empty the closure never runs and the function
returns `Ok(None)` (0 > max_backups is false). Otherwise it sorts the
matching nodes by `created_at` (stable sort, ascending) and returns the
oldest `len - max_backups` when `len > max_backups`, else `Ok(None)`. -/
def find_obsolete_nodes (backup_node : Option Node)
    (fetched : Except Err (List Node)) (max_backups : Nat) : FindResult :=
  match fetched with
  | .error e => .err e
  | .ok nodes =>
    match backup_node with
    | none =>
      if nodes.isEmpty then .ok none
      else .panicked "Backup node must be already defined to find obsolete nodes."
    | some b =>
      let backup_nodes := nodes.filter (matches_backup b)
      if backup_nodes.length > max_backups then
        let sorted := sort_by_created backup_nodes
        .ok (some (sorted.take (backup_nodes.length - max_backups)))
      else
        .ok none

/-- Splits a character list at every occurrence of `c`, the way Rust
`str::split` with a one-character pattern does (an empty input yields
one empty segment; a trailing separator yields a trailing empty
segment). -/
def split_on_char (c : Char) : List Char → List (List Char)
  | [] => [[]]
  | ch :: rest =>
    let r := split_on_char c rest
    if ch == c then
      [] :: r
    else
      match r with
      | [] => [[ch]]
      | seg :: segs => (ch :: seg) :: segs

/-- The last `"\\"`-separated segment of a path, as
`dir_path.split("\\").last().unwrap()` computes it; also used for
`Path::new(file_name).file_name()`, which agrees with it on the
separator-free and `"\\"`-separated names this program passes around. -/
def path_file_name (s : String) : String :=
  ⟨(split_on_char '\\' s.data).getLastD s.data⟩

/-- External inputs consumed by `upload_file`: the remote-store listing,
the local file-open/metadata step (returning the file's size), and the
result of the MEGA upload primitive. -/
structure UploadEnv where
  fetched : Except Err (List Node)
  openSize : String → Except Err Nat
  uploadRes : Except Err Unit

/-- `BackupClient::upload_file` (src/lib.rs lines 177-211).

Returns the Rust result together with a flag recording whether the remote
store's upload primitive (`mega_client.upload_node`) was invoked.

When `backup_node` is `None` the source logs a warning and returns
`Ok(())` without touching the network (else-branch, lines 207-210).
Otherwise it fetches the node listing, computes the base file name
(shadowing `file_name`), errors with `MEGAFileExistsError` when a file
node of that name already exists under the destination folder, opens the
(shadowed, base-named) file for its size, and calls the upload primitive. -/
def upload_file (backup_node : Option Node) (env : UploadEnv)
    (file_name : String) : Except Err Unit × Bool :=
  match backup_node with
  | some dest_folder_node =>
    match env.fetched with
    | .error e => (.error e, false)
    | .ok nodes =>
      let base := path_file_name file_name
      let file_nodes := nodes.filter (fun n =>
        n.name == base && n.kind == NodeKind.file && n.parent == some dest_folder_node.handle)
      if file_nodes.length > 0 then
        (.error (.megaFileExists base), false)
      else
        match env.openSize base with
        | .error e => (.error e, false)
        | .ok _size =>
          match env.uploadRes with
          | .error e => (.error e, true)
          | .ok _ => (.ok (), true)
  | none =>
    (.ok (), false)

/-- A snapshot of a local directory tree, as the successful outcome of the
`read_dir`/`metadata` calls in `get_dir_contents`. Children are listed in
`read_dir` iteration order. -/
inductive FsNode where
  | file (name : String)
  | dir (name : String) (children : List FsNode)

mutual

/-- One iteration of the `for node in dir_contents` loop of
`get_dir_contents` (src/lib.rs lines 320-334): a directory whose name is
in the ignore list is skipped (`continue`) before recursion; any other
directory contributes its recursive contents; a non-directory entry
contributes its own absolute path unconditionally. -/
def entry_contents (parent : String) (ignore_folders : Option (List String)) :
    FsNode → List String
  | .file name => [parent ++ "\\" ++ name]
  | .dir name children =>
    if (match ignore_folders with
        | some folders => folders.contains name
        | none => false) then
      []
    else
      dir_walk (parent ++ "\\" ++ name) ignore_folders children

/-- The `for` loop of `get_dir_contents` over the entries of one directory,
in `read_dir` order. -/
def dir_walk (parent : String) (ignore_folders : Option (List String)) :
    List FsNode → List String
  | [] => []
  | n :: rest => entry_contents parent ignore_folders n ++ dir_walk parent ignore_folders rest

end

/-- `get_dir_contents` (src/lib.rs lines 315-337): the absolute paths of
the files found under the directory at path `dir` whose entries are
`children`, pruning ignored directory names before recursion. -/
def get_dir_contents (dir : String) (children : List FsNode)
    (ignore_folders : Option (List String)) : List String :=
  dir_walk dir ignore_folders children

mutual

/-- Deletes, at every depth, each directory whose name is in `ign`
(specification-side transform used to state the ignore-pruning claim). -/
def prune_entry (ign : List String) : FsNode → List FsNode
  | .file name => [.file name]
  | .dir name children =>
    if ign.contains name then [] else [.dir name (prune_list ign children)]

/-- `prune_entry` mapped over a list of siblings. -/
def prune_list (ign : List String) : List FsNode → List FsNode
  | [] => []
  | n :: rest => prune_entry ign n ++ prune_list ign rest

end

/-- Fuel-indexed core of Rust `str::trim_start_matches`: repeatedly removes
the prefix `p` from `s` while it matches. The fuel is an upper bound on the
number of removals; `trim_start_matches` instantiates it with `s.length`,
which suffices because every removal consumes at least one character
(when `p` is nonempty). -/
def trim_aux : Nat → List Char → List Char → List Char
  | 0, s, _ => s
  | fuel + 1, s, p =>
    if p ≠ [] ∧ p.isPrefixOf s then trim_aux fuel (s.drop p.length) p else s

/-- Rust `str::trim_start_matches(p)`: repeatedly strips the prefix `p`. -/
def trim_start_matches (s p : String) : String :=
  ⟨trim_aux s.data.length s.data p.data⟩

/-- The archive-entry path computed in `create_tarball_from_dirs`
(src/lib.rs lines 282-287): the last `"\\"`-separated segment of
`dir_path`, then `"\\"`, then `node_path` with the prefix
`dir_path ++ "\\"` stripped by `trim_start_matches` (which strips the
prefix repeatedly, not just once). -/
def relative_path (dir_path node_path : String) : String :=
  let backup_abs_folder_path := dir_path ++ "\\"
  let backup_folder_name := path_file_name dir_path
  backup_folder_name ++ "\\" ++ trim_start_matches node_path backup_abs_folder_path

/-- A produced archive: the sequence of entries appended by
`tar.append_file`, each an archive path paired with the file's bytes. -/
abbrev Tarball := List (String × List UInt8)

/-- The local filesystem's file map, used for the existence check and the
creation of the archive file: path of an existing file paired with its
archive content (only archive files matter to the claims modelled here). -/
abbrev FileMap := List (String × Tarball)

/-- Association-list lookup on the file map. -/
def FileMap.find (fs : FileMap) (name : String) : Option Tarball :=
  match fs with
  | [] => none
  | (k, v) :: rest => if k == name then some v else FileMap.find rest name

/-- The inner `for node_path in dir_contents` loop of
`create_tarball_from_dirs` (src/lib.rs lines 277-291): opens each found
file (propagating an open failure) and appends it to the archive under
`relative_path`. -/
def append_found_files (dir_path : String)
    (read_file : String → Except Err (List UInt8)) :
    List String → Tarball → Except Err Unit × Tarball
  | [], acc => (.ok (), acc)
  | node_path :: more, acc =>
    match read_file node_path with
    | .error e => (.error e, acc)
    | .ok bytes =>
      append_found_files dir_path read_file more
        (acc ++ [(relative_path dir_path node_path, bytes)])

/-- The outer `for dir_path in dirs` loop of `create_tarball_from_dirs`
(src/lib.rs lines 274-292): traverses each source root with
`get_dir_contents` and appends every found file. -/
def append_dirs (ignore_folders : Option (List String))
    (read_file : String → Except Err (List UInt8)) :
    List (String × List FsNode) → Tarball → Except Err Unit × Tarball
  | [], acc => (.ok (), acc)
  | (dir_path, children) :: rest, acc =>
    match append_found_files dir_path read_file
        (get_dir_contents dir_path children ignore_folders) acc with
    | (.error e, acc2) => (.error e, acc2)
    | (.ok _, acc2) => append_dirs ignore_folders read_file rest acc2

/-- `create_tarball_from_dirs` (src/lib.rs lines 261-297).

Inputs: the file map `fs` (ambient filesystem state), the source roots as
`(dir_path, children)` pairs of directory-tree snapshots, the archive
file name, the optional ignore list, and `read_file`, the oracle for
`File::open` on a traversed path (an `Err` models an open failure, which
the source propagates with `?`).

Returns the Rust result paired with the filesystem state after the call:
when `file_name` already exists the function returns `TarballExistsError`
before creating anything, leaving `fs` unchanged; otherwise it traverses
every root with `get_dir_contents`, appends each found file under
`relative_path`, and registers the finished archive at `file_name`. A
mid-traversal open failure leaves the created (partial) archive file
in place, as the source does. -/
def create_tarball_from_dirs (fs : FileMap)
    (dirs : List (String × List FsNode)) (file_name : String)
    (ignore_folders : Option (List String))
    (read_file : String → Except Err (List UInt8)) :
    Except Err Unit × FileMap :=
  match fs.find file_name with
  | some _ => (.error (.tarballExists file_name), fs)
  | none =>
    match append_dirs ignore_folders read_file dirs [] with
    | (.error e, acc) => (.error e, (file_name, acc) :: fs)
    | (.ok _, acc) => (.ok (), (file_name, acc) :: fs)

/-- The settings record destructured at the top of `run`
(src/lib.rs lines 341-343). -/
structure Settings where
  email : String
  password : String
  dirs_to_backup : List String
  dirs_to_ignore : List String
deriving DecidableEq

/-- Observable actions of one pipeline lifetime, in order of occurrence.
`logoutCall` is the explicit `try_logout` performed inside `run`;
`spawnedLogoutCall` is the best-effort logout task spawned by
`Drop for BackupClient` when the client goes out of scope with its
`dropped` flag still false. -/
inductive Event where
  | archiveBuilt
  | loginCall
  | uploadFileCall
  | deleteNodes (ns : List Node)
  | logoutCall
  | removeFileCall (file_name : String)
  | spawnedLogoutCall
deriving DecidableEq

/-- The final fate of one `run` invocation. -/
inductive Outcome where
  | ok
  | fail (e : Err)
  | panicked (msg : String)
deriving DecidableEq

/-- Results of the external calls `run` performs, fixed up front so the
pipeline is a pure function of them. `today` is the formatted local date
used to name the archive; `loginAuth` covers `mega_client.login` together
with the `fetch_own_nodes` call inside `BackupClient::login`, and
`loginResolve` is the `get_node_by_path` result stored into
`backup_node`; `uploadFetch`/`openSize`/`uploadRes` feed `upload_file`,
and `obsoleteFetch` feeds `find_obsolete_nodes`. -/
structure RunEnv where
  today : String
  settings : Except Err Settings
  tarball : Except Err Unit
  loginAuth : Except Err Unit
  loginResolve : Option Node
  uploadFetch : Except Err (List Node)
  openSize : String → Except Err Nat
  uploadRes : Except Err Unit
  obsoleteFetch : Except Err (List Node)
  removeObsolete : Except Err Unit
  logout : Except Err Unit
  removeFile : Except Err Unit

/-- The archive file name `format!("backup{}.tar.gz", today_date)`
(src/lib.rs lines 346-347). -/
def archive_name (today : String) : String :=
  "backup" ++ today ++ ".tar.gz"

/-- `Drop for BackupClient` (src/lib.rs lines 224-240): when the client
goes out of scope with `dropped == false`, a detached task running
`try_logout` is spawned; when `dropped` is already true, nothing happens. -/
def drop_client (dropped : Bool) : List Event :=
  if dropped then [] else [.spawnedLogoutCall]

/-- The upload stage of `run` (src/lib.rs line 362): the `upload_file`
model applied to the client's `backup_node` and the dated archive name. -/
def upload_step (env : RunEnv) : Except Err Unit :=
  (upload_file env.loginResolve ⟨env.uploadFetch, env.openSize, env.uploadRes⟩
    (archive_name env.today)).1

/-- The retention stage of `run` (src/lib.rs line 378):
`client.find_obsolete_nodes(10)`. -/
def retention_step (env : RunEnv) : FindResult :=
  find_obsolete_nodes env.loginResolve env.obsoleteFetch 10

/-- `run` (src/lib.rs lines 340-391) followed by the scope-exit `Drop` of
`client`, as one event trace with the run's outcome.

Faithful control flow:
* settings read failure and tarball failure return before the client
  exists (no drop events);
* after `BackupClient::new` the client's `dropped` flag is false and no
  statement of `run` ever sets it, so every exit path appends
  `drop_client false`;
* a login failure propagates with `?`; a successful login stores
  `loginResolve` into `backup_node` (absence is not an error);
* the upload step is the `upload_file` model applied to that
  `backup_node`; on failure `run` enters the cleanup branch: `try_logout`
  (its own error only logged), then `remove_file(..)?` — a removal
  failure replaces the upload error — then returns the upload error;
* after a successful upload step, the result of the
  `find_obsolete_nodes` model at `max_backups = 10` is propagated with
  `?` on error (and a panic unwinds) with no logout and no archive
  removal;
* a `Some` result is deleted via `remove_obsolete_nodes(..)?`, whose
  error likewise propagates with no logout and no archive removal;
* the success path then performs `try_logout` followed by
  `remove_file(file_name)?`. -/
def run (env : RunEnv) : Outcome × List Event :=
  match env.settings with
  | .error e => (.fail e, [])
  | .ok _ =>
    let file_name := archive_name env.today
    match env.tarball with
    | .error e => (.fail e, [])
    | .ok _ =>
      match env.loginAuth with
      | .error e => (.fail e, [.archiveBuilt, .loginCall] ++ drop_client false)
      | .ok _ =>
        match upload_step env with
        | .error e =>
          match env.removeFile with
          | .error e2 =>
            (.fail e2,
              [.archiveBuilt, .loginCall, .uploadFileCall, .logoutCall,
                .removeFileCall file_name] ++ drop_client false)
          | .ok _ =>
            (.fail e,
              [.archiveBuilt, .loginCall, .uploadFileCall, .logoutCall,
                .removeFileCall file_name] ++ drop_client false)
        | .ok _ =>
          match retention_step env with
          | .panicked m =>
            (.panicked m,
              [.archiveBuilt, .loginCall, .uploadFileCall] ++ drop_client false)
          | .err e =>
            (.fail e,
              [.archiveBuilt, .loginCall, .uploadFileCall] ++ drop_client false)
          | .ok r =>
            let delEv : List Event :=
              match r with
              | some ns => [.deleteNodes ns]
              | none => []
            let removeRes : Except Err Unit :=
              match r with
              | some _ => env.removeObsolete
              | none => .ok ()
            match removeRes with
            | .error e =>
              (.fail e,
                [.archiveBuilt, .loginCall, .uploadFileCall] ++ delEv ++ drop_client false)
            | .ok _ =>
              match env.removeFile with
              | .error e =>
                (.fail e,
                  [.archiveBuilt, .loginCall, .uploadFileCall] ++ delEv ++
                    [.logoutCall, .removeFileCall file_name] ++ drop_client false)
              | .ok _ =>
                (.ok,
                  [.archiveBuilt, .loginCall, .uploadFileCall] ++ delEv ++
                    [.logoutCall, .removeFileCall file_name] ++ drop_client false)

/-- Recognizes the explicit `try_logout` event of `run`. -/
def is_logout_event : Event → Bool
  | .logoutCall => true
  | _ => false

/-- Recognizes the drop-time safety-net logout event. -/
def is_spawned_logout_event : Event → Bool
  | .spawnedLogoutCall => true
  | _ => false

/-- Recognizes a local-archive-file removal event. -/
def is_remove_file_event : Event → Bool
  | .removeFileCall _ => true
  | _ => false

/-- Recognizes a remote-node deletion event. -/
def is_delete_event : Event → Bool
  | .deleteNodes _ => true
  | _ => false

/-- The remote backup folder, as a node, for concrete instantiations. -/
def sample_folder : Node := ⟨"Backups", .folder, none, 0, 1⟩

/-- A remote backup-archive node under `sample_folder`, created at 10. -/
def sample_node : Node := ⟨"backup2024-01-01.tar.gz", .file, some 1, 10, 11⟩

/-- A remote backup-archive node under `sample_folder`, created at 5. -/
def sample_node2 : Node := ⟨"backup2024-01-02.tar.gz", .file, some 1, 5, 12⟩

/-- A remote backup-archive node under `sample_folder`, created at 7. -/
def sample_node3 : Node := ⟨"backup2024-01-03.tar.gz", .file, some 1, 7, 13⟩

/-- Upload inputs with an empty remote listing and a successful upload. -/
def upload_env_c1 : UploadEnv := ⟨.ok [], fun _ => .ok 0, .ok ()⟩

/-- A run environment in which every external call succeeds. -/
def env_c2 : RunEnv :=
  ⟨"2024-01-01", .ok ⟨"e", "p", [], []⟩, .ok (), .ok (), some sample_folder,
    .ok [], fun _ => .ok 0, .ok (), .ok [], .ok (), .ok (), .ok ()⟩

/-- A run environment in which everything succeeds up to and including the
upload, and the retention listing then fails. -/
def env_c4 : RunEnv :=
  ⟨"2024-01-01", .ok ⟨"e", "p", [], []⟩, .ok (), .ok (), some sample_folder,
    .ok [], fun _ => .ok 0, .ok (), .error (.mega "listing failed"), .ok (), .ok (), .ok ()⟩

/-- A run environment in which the upload step fails (its node listing
errors out) and the best-effort logout also fails. -/
def env_c9 : RunEnv :=
  ⟨"2024-01-01", .ok ⟨"e", "p", [], []⟩, .ok (), .ok (), some sample_folder,
    .error (.mega "fetch failed"), fun _ => .ok 0, .ok (), .ok [], .ok (),
    .error (.mega "logout failed"), .ok ()⟩

/-!
## Theorems

One theorem per claim of the specification, preceded by the helper lemmas
they share.
-/

/-- Stable insertion preserves the multiset of elements. -/
theorem insert_by_created_perm (x : Node) (l : List Node) :
    List.Perm (insert_by_created x l) (x :: l) := by
  induction l with
  | nil => exact List.Perm.refl _
  | cons y rest ih =>
    by_cases h : y.created_at < x.created_at
    · rw [insert_by_created, if_pos h]
      exact (ih.cons y).trans (List.Perm.swap x y rest)
    · rw [insert_by_created, if_neg h]

/-- `sort_by_created` is a permutation of its input. -/
theorem sort_by_created_perm (l : List Node) :
    List.Perm (sort_by_created l) l := by
  induction l with
  | nil => exact List.Perm.refl _
  | cons x rest ih =>
    exact (insert_by_created_perm x (sort_by_created rest)).trans (ih.cons x)

/-- Stable insertion into an ascending list stays ascending. -/
theorem insert_by_created_pairwise (x : Node) (l : List Node)
    (h : l.Pairwise (fun a b => a.created_at ≤ b.created_at)) :
    (insert_by_created x l).Pairwise (fun a b => a.created_at ≤ b.created_at) := by
  induction l with
  | nil => simp [insert_by_created]
  | cons y rest ih =>
    rw [List.pairwise_cons] at h
    obtain ⟨hy, hrest⟩ := h
    by_cases hlt : y.created_at < x.created_at
    · rw [insert_by_created, if_pos hlt]
      rw [List.pairwise_cons]
      constructor
      · intro z hz
        have hz2 : z = x ∨ z ∈ rest := by
          have := (insert_by_created_perm x rest).mem_iff.mp hz
          simpa using this
        rcases hz2 with rfl | hzr
        · exact le_of_lt hlt
        · exact hy z hzr
      · exact ih hrest
    · rw [insert_by_created, if_neg hlt]
      rw [List.pairwise_cons]
      refine ⟨?_, List.pairwise_cons.mpr ⟨hy, hrest⟩⟩
      intro z hz
      rcases List.mem_cons.mp hz with rfl | hzr
      · exact le_of_not_lt hlt
      · exact le_trans (le_of_not_lt hlt) (hy z hzr)

/-- `sort_by_created` sorts ascending by creation time. -/
theorem sort_by_created_pairwise (l : List Node) :
    (sort_by_created l).Pairwise (fun a b => a.created_at ≤ b.created_at) := by
  induction l with
  | nil => simp [sort_by_created]
  | cons x rest ih => exact insert_by_created_pairwise x _ ih

/-- Closed form of `find_obsolete_nodes` on a resolved backup node and a
successful listing. -/
theorem find_obsolete_nodes_some_ok (b : Node) (nodes : List Node) (k : Nat) :
    find_obsolete_nodes (some b) (.ok nodes) k =
      (if (nodes.filter (matches_backup b)).length > k then
        .ok (some ((sort_by_created (nodes.filter (matches_backup b))).take
          ((nodes.filter (matches_backup b)).length - k)))
      else .ok none) := rfl

/-- C3: for a resolved backup folder and a successful listing whose
matching objects (parent is the backup folder, name contains both the
backup marker and the archive extension) have pairwise-distinct creation
timestamps, `find_obsolete_nodes` with `max_backups = k` succeeds; it
returns `None` (no obsolete nodes) when at most `k` objects match, and
otherwise exactly the `N - k` oldest matching objects, sorted ascending
by creation time. -/
theorem find_obsolete_nodes_retention (b : Node) (nodes : List Node) (k : Nat)
    (hd : ((nodes.filter (matches_backup b)).map Node.created_at).Nodup) :
    ∃ r, find_obsolete_nodes (some b) (.ok nodes) k = .ok r ∧
      ((nodes.filter (matches_backup b)).length ≤ k → r = none) ∧
      (k < (nodes.filter (matches_backup b)).length →
        ∃ l, r = some l ∧
          l.length = (nodes.filter (matches_backup b)).length - k ∧
          l.Pairwise (fun x y => x.created_at ≤ y.created_at) ∧
          (∀ x ∈ l, x ∈ nodes.filter (matches_backup b)) ∧
          (∀ x ∈ l, ∀ y ∈ nodes.filter (matches_backup b), y ∉ l →
            x.created_at < y.created_at)) := by
  rw [find_obsolete_nodes_some_ok]
  set m := nodes.filter (matches_backup b) with hm
  by_cases hlen : m.length > k
  · rw [if_pos hlen]
    set sorted := sort_by_created m with hsorted
    set l := sorted.take (m.length - k) with hl
    have hperm : List.Perm sorted m := sort_by_created_perm m
    have hslen : sorted.length = m.length := hperm.length_eq
    refine ⟨some l, rfl, fun h => absurd hlen (by omega), fun _ => ⟨l, rfl, ?_, ?_, ?_, ?_⟩⟩
    · rw [hl, List.length_take, hslen]
      omega
    · exact (sort_by_created_pairwise m).sublist (List.take_sublist _ _)
    · intro x hx
      exact hperm.mem_iff.mp (List.mem_of_mem_take hx)
    · intro x hx y hy hynl
      have hsplit : l ++ sorted.drop (m.length - k) = sorted := List.take_append_drop _ _
      have hydrop : y ∈ sorted.drop (m.length - k) := by
        have hysorted : y ∈ sorted := hperm.mem_iff.mpr hy
        rcases List.mem_append.mp (by rw [hsplit]; exact hysorted) with h1 | h2
        · exact absurd h1 hynl
        · exact h2
      have hpair := sort_by_created_pairwise m
      rw [← hsorted, ← hsplit, List.pairwise_append] at hpair
      have hle : x.created_at ≤ y.created_at := hpair.2.2 x hx y hydrop
      have hnodup : (sorted.map Node.created_at).Nodup :=
        ((hperm.map Node.created_at).nodup_iff).mpr hd
      have hne : x.created_at ≠ y.created_at := by
        have hnp : sorted.Pairwise (fun a b => a.created_at ≠ b.created_at) :=
          (List.pairwise_map).mp hnodup
        rw [← hsplit, List.pairwise_append] at hnp
        exact hnp.2.2 x hx y hydrop
      exact lt_of_le_of_ne hle hne
  · rw [if_neg hlen]
    exact ⟨none, rfl, fun _ => rfl, fun hk => absurd hk (by omega)⟩

/-- Witness for C3: three matching nodes with distinct creation times and
`max_backups = 1`. -/
theorem find_obsolete_nodes_retention_witness :
    ((([sample_node, sample_node2, sample_node3].filter
        (matches_backup sample_folder)).map Node.created_at).Nodup) ∧
    (∃ r, find_obsolete_nodes (some sample_folder)
        (.ok [sample_node, sample_node2, sample_node3]) 1 = .ok r ∧
      (([sample_node, sample_node2, sample_node3].filter
          (matches_backup sample_folder)).length ≤ 1 → r = none) ∧
      (1 < ([sample_node, sample_node2, sample_node3].filter
          (matches_backup sample_folder)).length →
        ∃ l, r = some l ∧
          l.length = ([sample_node, sample_node2, sample_node3].filter
            (matches_backup sample_folder)).length - 1 ∧
          l.Pairwise (fun x y => x.created_at ≤ y.created_at) ∧
          (∀ x ∈ l, x ∈ [sample_node, sample_node2, sample_node3].filter
            (matches_backup sample_folder)) ∧
          (∀ x ∈ l, ∀ y ∈ [sample_node, sample_node2, sample_node3].filter
              (matches_backup sample_folder), y ∉ l →
            x.created_at < y.created_at))) :=
  ⟨by decide,
    find_obsolete_nodes_retention sample_folder
      [sample_node, sample_node2, sample_node3] 1 (by decide)⟩

/-- C5: with no resolved backup folder handle and a nonempty fetched
listing, `find_obsolete_nodes` does not return an error result: it
panics, via the `.expect` inside its filter closure — contradicting its
own documentation, which promises an error return when `backup_node` is
`None`. Evaluated at the failing input: `backup_node = None`, one
fetched node, `max_backups = 10`. -/
theorem find_obsolete_nodes_absent_node_panics :
    find_obsolete_nodes none (.ok [sample_node]) 10 =
      .panicked "Backup node must be already defined to find obsolete nodes." := rfl

/-- C1 counterexample: with `backup_node` absent, `upload_file` does not
fail at this concrete input — it returns `Ok(())`, refuting the claimed
`NoDestination` error (the second component records that the remote
store's upload primitive was not invoked). -/
theorem upload_file_absent_node_cex :
    upload_file none upload_env_c1 "backup2024-01-01.tar.gz" = (.ok (), false) := rfl

/-- C1 (amended): for every session whose backup folder handle was not
resolved, `upload_file` on any local file path returns `Ok(())` after
logging a warning, and no network call — neither the listing fetch nor
the upload primitive — is performed. -/
theorem upload_file_absent_node_ok_no_network (env : UploadEnv) (file_name : String) :
    upload_file none env file_name = (.ok (), false) := rfl

/-- Looking up the key just inserted at the front of the file map. -/
theorem FileMap.find_cons_self (fs : FileMap) (k : String) (v : Tarball) :
    FileMap.find ((k, v) :: fs) k = some v := by
  simp [FileMap.find]

/-- C6: the archive builder refuses to overwrite: whenever the archive
path already exists it fails with `TarballExistsError` and leaves the
filesystem unchanged (nothing is created or written); in particular, a
second call reusing the archive path of a successful first call — with
any source roots, ignore list and file contents — fails with that error
and leaves the first call's archive byte-for-byte unchanged. -/
theorem create_tarball_refuses_overwrite (dirs : List (String × List FsNode))
    (file_name : String) (ignore_folders : Option (List String))
    (read_file : String → Except Err (List UInt8)) :
    (∀ fs : FileMap, (FileMap.find fs file_name).isSome = true →
      create_tarball_from_dirs fs dirs file_name ignore_folders read_file =
        (.error (.tarballExists file_name), fs)) ∧
    (∀ (fs fs' : FileMap) (dirs2 : List (String × List FsNode))
        (ig2 : Option (List String)) (rf2 : String → Except Err (List UInt8)),
      create_tarball_from_dirs fs dirs file_name ignore_folders read_file = (.ok (), fs') →
      create_tarball_from_dirs fs' dirs2 file_name ig2 rf2 =
        (.error (.tarballExists file_name), fs')) := by
  constructor
  · intro fs h
    obtain ⟨t, ht⟩ := Option.isSome_iff_exists.mp h
    simp [create_tarball_from_dirs, ht]
  · intro fs fs' dirs2 ig2 rf2 hfirst
    rcases hfind : FileMap.find fs file_name with _ | t
    · simp only [create_tarball_from_dirs, hfind] at hfirst
      rcases hbuild : append_dirs ignore_folders read_file dirs [] with ⟨res, acc⟩
      rw [hbuild] at hfirst
      cases res with
      | error e => simp at hfirst
      | ok u =>
        simp only [Prod.mk.injEq, true_and] at hfirst
        subst hfirst
        simp [create_tarball_from_dirs, FileMap.find_cons_self]
    · simp only [create_tarball_from_dirs, hfind] at hfirst
      simp at hfirst

/-- Witness for C6 at a filesystem already holding the archive path. -/
theorem create_tarball_refuses_overwrite_witness :
    (FileMap.find [("out.tar.gz", ([] : Tarball))] "out.tar.gz").isSome = true ∧
    create_tarball_from_dirs [("out.tar.gz", [])] [] "out.tar.gz" none (fun _ => .ok []) =
      (.error (.tarballExists "out.tar.gz"), [("out.tar.gz", [])]) :=
  ⟨by decide,
    (create_tarball_refuses_overwrite [] "out.tar.gz" none (fun _ => .ok [])).1
      [("out.tar.gz", [])] (by decide)⟩

/-- C8: evaluation at the failing input. The source root `"a"` contains a
subdirectory also named `"a"` holding the file `"f.txt"`; the traversal
finds the file at `"a\\a\\f.txt"`, whose path of the form
`<root-dir-name>\\<relative-subpath>` is `"a\\a\\f.txt"` — but because
`trim_start_matches` strips the `"a\\"` prefix repeatedly, the archive
entry is recorded at `"a\\f.txt"` instead. -/
theorem create_tarball_nested_basename_entry :
    get_dir_contents "a" [.dir "a" [.file "f.txt"]] none = ["a\\a\\f.txt"] ∧
    relative_path "a" "a\\a\\f.txt" = "a\\f.txt" ∧
    create_tarball_from_dirs [] [("a", [.dir "a" [.file "f.txt"]])] "out.tar.gz" none
        (fun _ => .ok []) =
      (.ok (), [("out.tar.gz", [("a\\f.txt", [])])]) := by decide

/-- `dir_walk` distributes over list append. -/
theorem dir_walk_append (parent : String) (ign : Option (List String))
    (l1 l2 : List FsNode) :
    dir_walk parent ign (l1 ++ l2) =
      dir_walk parent ign l1 ++ dir_walk parent ign l2 := by
  induction l1 with
  | nil => simp [dir_walk]
  | cons n rest ih => simp [dir_walk, ih]

mutual

/-- One sibling's contribution is unchanged when every ignored directory
is deleted from the tree below it. -/
theorem entry_contents_prune (parent : String) (ign : List String) (n : FsNode) :
    entry_contents parent (some ign) n =
      dir_walk parent (some ign) (prune_entry ign n) := by
  cases n with
  | file name => simp [entry_contents, prune_entry, dir_walk]
  | dir name children =>
    by_cases h : name ∈ ign
    · simp [entry_contents, prune_entry, h, dir_walk]
    · simp [entry_contents, prune_entry, h, dir_walk]
      exact dir_walk_prune (parent ++ "\\" ++ name) ign children

/-- The traversal result is unchanged when every ignored directory, at
every depth, is deleted from the tree. -/
theorem dir_walk_prune (parent : String) (ign : List String) (l : List FsNode) :
    dir_walk parent (some ign) l =
      dir_walk parent (some ign) (prune_list ign l) := by
  cases l with
  | nil => simp [dir_walk, prune_list]
  | cons n rest =>
    rw [dir_walk, prune_list, dir_walk_append,
      ← entry_contents_prune parent ign n, ← dir_walk_prune parent ign rest]

end

/-- C7: a directory entry whose name is in the ignore set contributes
zero entries to the traversal result wherever it appears among its
siblings; and deleting every ignored directory — at every depth of the
tree, nested descendants included — leaves the traversal result
unchanged, so no descendant of an ignored directory is ever visited. -/
theorem ignored_dir_contributes_nothing (parent name : String)
    (sub pre post : List FsNode) (ign : List String) (h : name ∈ ign) :
    (get_dir_contents parent (pre ++ .dir name sub :: post) (some ign) =
      get_dir_contents parent (pre ++ post) (some ign)) ∧
    (get_dir_contents parent (pre ++ .dir name sub :: post) (some ign) =
      get_dir_contents parent
        (prune_list ign (pre ++ FsNode.dir name sub :: post)) (some ign)) := by
  constructor
  · unfold get_dir_contents
    rw [dir_walk_append, dir_walk_append, dir_walk]
    simp [entry_contents, h]
  · exact dir_walk_prune parent ign (pre ++ FsNode.dir name sub :: post)

/-- Witness for C7: an ignored `node_modules` directory with a nested
file contributes nothing, at a concrete tree. -/
theorem ignored_dir_contributes_nothing_witness :
    "node_modules" ∈ ["node_modules"] ∧
    ((get_dir_contents "root"
        ([] ++ FsNode.dir "node_modules" [FsNode.file "x"] :: [FsNode.file "keep"])
        (some ["node_modules"]) =
      get_dir_contents "root" ([] ++ [FsNode.file "keep"]) (some ["node_modules"])) ∧
    (get_dir_contents "root"
        ([] ++ FsNode.dir "node_modules" [FsNode.file "x"] :: [FsNode.file "keep"])
        (some ["node_modules"]) =
      get_dir_contents "root"
        (prune_list ["node_modules"]
          ([] ++ FsNode.dir "node_modules" [FsNode.file "x"] :: [FsNode.file "keep"]))
        (some ["node_modules"]))) :=
  ⟨by decide,
    ignored_dir_contributes_nothing "root" "node_modules" [FsNode.file "x"] []
      [FsNode.file "keep"] ["node_modules"] (by decide)⟩

/-- C10: the ignore set is consulted only for directory entries: a
non-directory entry whose name is in the ignore set is still included in
the traversal result (and hence still archived). -/
theorem ignored_name_file_still_listed (parent name : String)
    (pre post : List FsNode) (ign : List String) (_h : name ∈ ign) :
    (parent ++ "\\" ++ name) ∈
      get_dir_contents parent (pre ++ .file name :: post) (some ign) := by
  unfold get_dir_contents
  rw [dir_walk_append]
  apply List.mem_append_right
  rw [dir_walk]
  apply List.mem_append_left
  simp [entry_contents]

/-- Witness for C10: a file named `node_modules` is still listed even
though `node_modules` is in the ignore set. -/
theorem ignored_name_file_still_listed_witness :
    "node_modules" ∈ ["node_modules"] ∧
    ("root" ++ "\\" ++ "node_modules") ∈
      get_dir_contents "root" ([] ++ FsNode.file "node_modules" :: [])
        (some ["node_modules"]) :=
  ⟨by decide,
    ignored_name_file_still_listed "root" "node_modules" [] [] ["node_modules"]
      (by decide)⟩

/-- C9: whenever the upload step fails, `run` attempts one logout — whose
own result constrains nothing here, so a logout error is logged but
never propagated — then deletes the local archive file, and surfaces the
original upload error as the run's result. -/
theorem run_upload_failure_cleanup (env : RunEnv) (e : Err) (s : Settings)
    (hs : env.settings = .ok s) (ht : env.tarball = .ok ())
    (hl : env.loginAuth = .ok ())
    (hu : upload_step env = .error e)
    (hrf : env.removeFile = .ok ()) :
    run env = (.fail e,
      [.archiveBuilt, .loginCall, .uploadFileCall, .logoutCall,
        .removeFileCall (archive_name env.today), .spawnedLogoutCall]) := by
  simp [run, hs, ht, hl, hu, hrf, drop_client]

/-- Witness for C9: a concrete environment whose upload listing fails and
whose logout also fails; the logout failure is not propagated and the
upload error is surfaced after the logout and the file removal. -/
theorem run_upload_failure_cleanup_witness :
    upload_step env_c9 = .error (.mega "fetch failed") ∧
    env_c9.logout = .error (.mega "logout failed") ∧
    run env_c9 = (.fail (.mega "fetch failed"),
      [.archiveBuilt, .loginCall, .uploadFileCall, .logoutCall,
        .removeFileCall (archive_name env_c9.today), .spawnedLogoutCall]) :=
  ⟨rfl, rfl,
    run_upload_failure_cleanup env_c9 (.mega "fetch failed") ⟨"e", "p", [], []⟩
      rfl rfl rfl rfl rfl⟩

/-- C2 (amended): on normal completion `run` performs exactly one
explicit logout and exactly one local-archive-file deletion, in that
order, before reporting success; but the session is not logged out
exactly once over its lifetime — the client's `dropped` flag is never
set on the normal path, so the drop-time safety net fires exactly one
additional best-effort logout for the already-logged-out session at
scope exit. -/
theorem run_normal_completion_logout_order (env : RunEnv) (s : Settings)
    (r : Option (List Node))
    (hs : env.settings = .ok s) (ht : env.tarball = .ok ())
    (hl : env.loginAuth = .ok ())
    (hu : upload_step env = .ok ())
    (hf : retention_step env = .ok r)
    (hro : env.removeObsolete = .ok ()) (hrf : env.removeFile = .ok ()) :
    run env = (.ok,
      [.archiveBuilt, .loginCall, .uploadFileCall] ++
        (match r with | some ns => [Event.deleteNodes ns] | none => []) ++
        [.logoutCall, .removeFileCall (archive_name env.today), .spawnedLogoutCall]) ∧
    (run env).2.countP is_logout_event = 1 ∧
    (run env).2.countP is_remove_file_event = 1 ∧
    (run env).2.countP is_spawned_logout_event = 1 := by
  cases r with
  | none =>
    refine ⟨?_, ?_, ?_, ?_⟩ <;>
      simp [run, hs, ht, hl, hu, hf, hro, hrf, drop_client, List.countP_cons,
        is_logout_event, is_remove_file_event, is_spawned_logout_event]
  | some ns =>
    refine ⟨?_, ?_, ?_, ?_⟩ <;>
      simp [run, hs, ht, hl, hu, hf, hro, hrf, drop_client, List.countP_cons,
        is_logout_event, is_remove_file_event, is_spawned_logout_event]

/-- Witness for C2's amended theorem at a fully successful environment. -/
theorem run_normal_completion_logout_order_witness :
    upload_step env_c2 = .ok () ∧
    retention_step env_c2 = .ok none ∧
    (run env_c2 = (.ok,
      [.archiveBuilt, .loginCall, .uploadFileCall] ++
        (match (none : Option (List Node)) with
          | some ns => [Event.deleteNodes ns] | none => []) ++
        [.logoutCall, .removeFileCall (archive_name env_c2.today), .spawnedLogoutCall]) ∧
    (run env_c2).2.countP is_logout_event = 1 ∧
    (run env_c2).2.countP is_remove_file_event = 1 ∧
    (run env_c2).2.countP is_spawned_logout_event = 1) :=
  ⟨rfl, rfl,
    run_normal_completion_logout_order env_c2 ⟨"e", "p", [], []⟩ none
      rfl rfl rfl rfl rfl rfl rfl⟩

/-- C2 counterexample: on a fully successful run the session's lifetime
trace contains, after the single explicit logout and the archive
removal, the drop-time safety-net logout — the already-logged-out
session is logged out a second time, refuting "no additional logout is
triggered ... by the drop-time safety net". -/
theorem run_drop_safety_net_refires_cex :
    run env_c2 = (.ok,
      [.archiveBuilt, .loginCall, .uploadFileCall, .logoutCall,
        .removeFileCall "backup2024-01-01.tar.gz", .spawnedLogoutCall]) ∧
    (run env_c2).2.countP is_logout_event = 1 ∧
    (run env_c2).2.countP is_spawned_logout_event = 1 := by decide

/-- Any remote deletion `run` performs is exactly of the set the
retention step judged obsolete. -/
theorem run_deletes_only_obsolete (env : RunEnv) (ns : List Node)
    (h : Event.deleteNodes ns ∈ (run env).2) :
    retention_step env = .ok (some ns) := by
  rcases hs : env.settings with e | s
  · simp [run, hs] at h
  · rcases ht : env.tarball with e | u
    · simp [run, hs, ht] at h
    · rcases hl : env.loginAuth with e | u2
      · simp [run, hs, ht, hl, drop_client] at h
      · rcases hu : upload_step env with e | u3
        · rcases hrf : env.removeFile with e2 | u4
          · simp [run, hs, ht, hl, hu, hrf, drop_client] at h
          · simp [run, hs, ht, hl, hu, hrf, drop_client] at h
        · rcases hf : retention_step env with r | e2 | m
          · rcases r with _ | ns2
            · rcases hrf : env.removeFile with e3 | u5 <;>
                simp [run, hs, ht, hl, hu, hf, hrf, drop_client] at h
            · rcases hro : env.removeObsolete with e3 | u5
              · simp [run, hs, ht, hl, hu, hf, hro, drop_client] at h
                subst h
                rfl
              · rcases hrf : env.removeFile with e4 | u6
                · simp [run, hs, ht, hl, hu, hf, hro, hrf, drop_client] at h
                  subst h
                  rfl
                · simp [run, hs, ht, hl, hu, hf, hro, hrf, drop_client] at h
                  subst h
                  rfl
          · simp [run, hs, ht, hl, hu, hf, drop_client] at h
          · simp [run, hs, ht, hl, hu, hf, drop_client] at h

/-- C4 (amended): with the local remove-file call succeeding, the local
archive produced by the run is deleted on the upload-failure path and on
every successful exit; but on the retention-eviction-error paths after a
successful upload — listing failure, or deletion failure of the obsolete
set — the eviction error is surfaced and the archive file is not
deleted; and the only remote deletion any path performs is of the
retention-obsolete set, so the uploaded object is never rolled back. -/
theorem run_archive_cleanup_paths (env : RunEnv) (s : Settings)
    (hs : env.settings = .ok s) (ht : env.tarball = .ok ())
    (hl : env.loginAuth = .ok ())
    (hrf : env.removeFile = .ok ()) :
    ((∃ e, upload_step env = .error e) →
      Event.removeFileCall (archive_name env.today) ∈ (run env).2) ∧
    ((run env).1 = .ok →
      Event.removeFileCall (archive_name env.today) ∈ (run env).2) ∧
    (∀ e, upload_step env = .ok () → retention_step env = .err e →
      run env = (.fail e,
        [.archiveBuilt, .loginCall, .uploadFileCall, .spawnedLogoutCall])) ∧
    (∀ e ns, upload_step env = .ok () → retention_step env = .ok (some ns) →
      env.removeObsolete = .error e →
      run env = (.fail e,
        [.archiveBuilt, .loginCall, .uploadFileCall, .deleteNodes ns,
          .spawnedLogoutCall])) ∧
    (∀ ns, Event.deleteNodes ns ∈ (run env).2 →
      retention_step env = .ok (some ns)) := by
  refine ⟨?_, ?_, ?_, ?_, ?_⟩
  · rintro ⟨e, he⟩
    simp [run, hs, ht, hl, he, hrf, drop_client]
  · intro hok
    rcases hu : upload_step env with e | u
    · simp [run, hs, ht, hl, hu, hrf, drop_client]
    · rcases hf : retention_step env with r | e2 | m
      · rcases r with _ | ns
        · simp [run, hs, ht, hl, hu, hf, hrf, drop_client]
        · rcases hro : env.removeObsolete with e3 | u3
          · simp [run, hs, ht, hl, hu, hf, hro, hrf, drop_client] at hok
          · simp [run, hs, ht, hl, hu, hf, hro, hrf, drop_client]
      · simp [run, hs, ht, hl, hu, hf, hrf, drop_client] at hok
      · simp [run, hs, ht, hl, hu, hf, hrf, drop_client] at hok
  · intro e hu hf
    simp [run, hs, ht, hl, hu, hf, drop_client]
  · intro e ns hu hf hro
    simp [run, hs, ht, hl, hu, hf, hro, drop_client]
  · intro ns h
    exact run_deletes_only_obsolete env ns h

/-- Witness for C4 at a fully successful environment: the success exit
deletes the archive file. -/
theorem run_archive_cleanup_paths_witness :
    env_c2.removeFile = .ok () ∧
    (run env_c2).1 = .ok ∧
    Event.removeFileCall (archive_name env_c2.today) ∈ (run env_c2).2 :=
  ⟨rfl, rfl,
    (run_archive_cleanup_paths env_c2 ⟨"e", "p", [], []⟩ rfl rfl rfl rfl).2.1 rfl⟩

/-- C4 counterexample: at a concrete environment where the upload
succeeded and the retention listing then fails, `run` exits surfacing
the eviction error with no local-archive deletion at all (and no remote
deletion), refuting "the local archive file is deleted before the
pipeline exits" on that path. -/
theorem run_eviction_error_keeps_archive_cex :
    run env_c4 = (.fail (.mega "listing failed"),
      [.archiveBuilt, .loginCall, .uploadFileCall, .spawnedLogoutCall]) ∧
    (run env_c4).2.countP is_remove_file_event = 0 ∧
    (run env_c4).2.countP is_delete_event = 0 := by decide

end Backuprs
